import Mathlib

/-!
Verification of the cpp.thread module (classes Thread, Mutex, Mutex::Lock
and InterruptException) against its specification.

The embedding models:
 - errors raised on a thread as an inductive type Err, with the dedicated
   InterruptException as the constructor Err.interrupt;
 - the per-thread state (class Thread::Info: name, pending exception) plus
   the stop state of the underlying jthread, as heap cells indexed by a
   numeric OS-thread id; the stop token stored in Info aliases the jthread
   stop state, so both are represented by the single field stopRequested;
 - the blocking waits of Mutex::Lock as functions over an explicit schedule:
   a list of absolute times at which the low-level condition-variable wait
   wakes up (by notification or spuriously), with the token state observed
   at the pre-wait checkpoint, during the wait, and at the post-wait
   checkpoint passed in as booleans; the std wait-until-with-predicate loop
   is translated from its documented equivalent code;
 - the construction handshake as a small interleaved transition system.
-/

namespace ThreadSpec

/-- Errors that can be raised on a thread.  Err.interrupt is the
InterruptException type of the source; Err.user covers every other
exception escaping a unit of work, tagged by a code. -/
inductive Err where
  | interrupt
  | user (code : Nat)
deriving DecidableEq, Repr

/-- std::cv_status, the result type of the waits without a predicate. -/
inductive CvStatus where
  | timeout
  | no_timeout
deriving DecidableEq, Repr

/-- Thread::Info::checkInterrupt: raise InterruptException exactly when the
stop token of the calling thread reports a stop request. -/
def checkInterrupt (stopRequested : Bool) : Except Err Unit :=
  if stopRequested then .error .interrupt else .ok ()

/-- Largest value of Thread::duration_t (std::chrono::microseconds), whose
representation is a 64-bit signed integer. -/
def durMax : Int := 9223372036854775807

/-- Largest value of Mutex::Lock::time_point (steady clock), again backed by
a 64-bit signed tick count. -/
def tpMax : Int := 9223372036854775807

/-- std::condition_variable_any::wait_until(lock, stopToken, deadline, pred),
translated from the equivalent loop documented for the standard library:
while the token has no stop request, evaluate the predicate (returning true
when it holds), otherwise sleep until the next wake; a wake at or past the
deadline re-evaluates the predicate once and returns its value, an earlier
wake loops.  When a stop was requested the predicate is evaluated once and
its value returned.  The predicate is stateful (state type sigma); wakes
lists the absolute times of the low-level wakeups, and an exhausted wake
list models a wait that blocks forever (result none). -/
def cvWaitUntil {σ : Type} (stop : Bool) (deadline : Int) (pred : σ → Bool × σ) :
    List Int → σ → Option (Bool × σ)
  | wakes, s =>
    if stop then some (pred s)
    else
      match pred s with
      | (true, s1) => some (true, s1)
      | (false, s1) =>
        match wakes with
        | [] => none
        | t :: rest =>
          if deadline ≤ t then some (pred s1)
          else cvWaitUntil stop deadline pred rest s1

/-- Mutex::Lock::waitUntil(timeout, stopWaiting): check interruption, run the
condition-variable wait, check interruption again, return the predicate
result.  i1 and i2 are the stop states of the calling thread observed at the
first and second checkpoint, stop the state observed by the wait itself. -/
def lockWaitUntilPred {σ : Type} (i1 stop i2 : Bool) (deadline : Int)
    (pred : σ → Bool × σ) (wakes : List Int) (s : σ) :
    Option (Except Err (Bool × σ)) :=
  match checkInterrupt i1 with
  | .error e => some (.error e)
  | .ok _ =>
    match cvWaitUntil stop deadline pred wakes s with
    | none => none
    | some rs =>
      match checkInterrupt i2 with
      | .error e => some (.error e)
      | .ok _ => some (.ok rs)

/-- Mutex::Lock::wait(stopWaiting): waitUntil at time_point::max. -/
def lockWaitPred {σ : Type} (i1 stop i2 : Bool) (pred : σ → Bool × σ)
    (wakes : List Int) (s : σ) : Option (Except Err (Bool × σ)) :=
  lockWaitUntilPred i1 stop i2 tpMax pred wakes s

/-- Mutex::Lock::waitFor(duration, stopWaiting): a non-positive duration
checks interruption and evaluates the predicate once without blocking; an
infinite duration (duration_t::max) waits until time_point::max; any other
positive duration waits until now + duration. -/
def lockWaitForPred {σ : Type} (i1 stop i2 : Bool) (now dur : Int)
    (pred : σ → Bool × σ) (wakes : List Int) (s : σ) :
    Option (Except Err (Bool × σ)) :=
  if dur ≤ 0 then
    match checkInterrupt i1 with
    | .error e => some (.error e)
    | .ok _ => some (.ok (pred s))
  else
    lockWaitUntilPred i1 stop i2 (if dur = durMax then tpMax else now + dur)
      pred wakes s

/-- The internally alternating guard of the unconditioned waits:
bool initial; the closure executes initial = !initial and returns the new
value, so successive calls yield false, true, false, true, ... when started
from initial = true. -/
def altGuard : Bool → Bool × Bool := fun initial => (!initial, !initial)

/-- Mapping of the predicate result onto std::cv_status used by the
unconditioned waits: a true predicate result is mapped to timeout. -/
def cvStatusOf (b : Bool) : CvStatus := if b then .timeout else .no_timeout

/-- Mutex::Lock::waitUntil(timeout) without a predicate: run the predicate
overload on the alternating guard started at initial = true and map the
boolean result onto cv_status. -/
def lockWaitUntilNoPred (i1 stop i2 : Bool) (deadline : Int)
    (wakes : List Int) : Option (Except Err CvStatus) :=
  (lockWaitUntilPred i1 stop i2 deadline altGuard wakes true).map
    (fun r => r.map fun rs => cvStatusOf rs.1)

/-- Mutex::Lock::waitFor(duration) without a predicate, built the same way
from the predicate overload. -/
def lockWaitForNoPred (i1 stop i2 : Bool) (now dur : Int)
    (wakes : List Int) : Option (Except Err CvStatus) :=
  (lockWaitForPred i1 stop i2 now dur altGuard wakes true).map
    (fun r => r.map fun rs => cvStatusOf rs.1)

/-- Thread::Info, the per-thread state: the thread name and the captured,
not yet observed, exception.  The stop token field of the source shares its
state with the owning jthread and is therefore kept next to Info in the
OsThread heap cell below. -/
structure Info where
  name : String
  exception : Option Err
deriving DecidableEq, Repr

/-- Info::Info(): default construction gives an empty name (std::string
default) and no pending exception (null exception_ptr). -/
def Info.init : Info := { name := "", exception := none }

/-- One OS thread as seen through the thread-local lookup Thread::info():
its Info record plus the shared stop state aliased by the jthread handle
and by Info::stopToken.  A thread not spawned through class Thread keeps
stopRequested = false forever. -/
structure OsThread where
  info : Info
  stopRequested : Bool
deriving DecidableEq, Repr

/-- The heap of per-OS-thread cells, indexed by a numeric thread id. -/
abbrev Heap := Nat → OsThread

/-- Pointwise heap update at one thread id. -/
def Heap.update (h : Heap) (tid : Nat) (o : OsThread) : Heap :=
  fun j => if j = tid then o else h j

/-- std::jthread::request_stop on the thread tid: set the shared stop state;
nothing in the module ever clears it. -/
def requestStop (h : Heap) (tid : Nat) : Heap :=
  h.update tid { h tid with stopRequested := true }

/-- Class Thread: the owned jthread handle (none when not joinable, i.e.
default-constructed, moved-from, joined or detached) and the shared_ptr to
the Info of the spawned thread (none when null). -/
structure Thread where
  m_thread : Option Nat
  m_info : Option Nat
deriving DecidableEq, Repr

/-- Thread::isRunning: the jthread handle is joinable. -/
def Thread.isRunning (t : Thread) : Bool := t.m_thread.isSome

/-- Static Thread::isInterrupted for the calling thread tid: the stop token
of the ambient per-thread state reports a stop request. -/
def Thread.isInterrupted (h : Heap) (tid : Nat) : Bool := (h tid).stopRequested

/-- Thread::interrupt: m_thread.request_stop(); on an empty handle the call
has no effect. -/
def Thread.interrupt (t : Thread) (h : Heap) : Heap :=
  match t.m_thread with
  | none => h
  | some tid => requestStop h tid

/-- Thread::Info::checkException: when an exception is pending, move it out,
clear the field and rethrow it; otherwise do nothing.  The first component
is the error rethrown, if any. -/
def Info.checkException (i : Info) : Option Err × Info :=
  match i.exception with
  | none => (none, i)
  | some e => (some e, { i with exception := none })

/-- Thread::check: consult checkException of the referenced Info when the
reference is non-null, else do nothing. -/
def Thread.check (t : Thread) (h : Heap) : Option Err × Heap :=
  match t.m_info with
  | none => (none, h)
  | some tid =>
    let r := Info.checkException (h tid).info
    (r.1, h.update tid { h tid with info := r.2 })

/-- Thread::join: when running, join the jthread (the handle is consumed;
the blocking until completion is outside the model), then run check. -/
def Thread.join (t : Thread) (h : Heap) : Thread × Option Err × Heap :=
  let t1 := if t.isRunning then { t with m_thread := none } else t
  let r := Thread.check t1 h
  (t1, r.1, r.2)

/-- Thread::detach: when running, release the handle and drop the Info
reference. -/
def Thread.detach (t : Thread) : Thread :=
  if t.isRunning then { m_thread := none, m_info := none } else t

/-- Which branch Thread::reset took on the owned jthread. -/
inductive ResetAction where
  | idle
  | joined
  | detached
deriving DecidableEq, Repr

/-- Thread::reset, called from the thread caller: when running, request a
stop, then join when the caller differs from the owned thread and detach
when they coincide, and finally drop the Info reference. -/
def Thread.reset (t : Thread) (h : Heap) (caller : Nat) :
    Thread × Heap × ResetAction :=
  match t.m_thread with
  | none => (t, h, .idle)
  | some tid =>
    let h1 := requestStop h tid
    if caller ≠ tid then ({ m_thread := none, m_info := none }, h1, .joined)
    else ({ m_thread := none, m_info := none }, h1, .detached)

/-- Thread move construction: the jthread handle is moved (the source
becomes non-joinable) while the shared_ptr m_info is copied, so the source
keeps its Info reference.  First component: the new object; second: the
source afterwards. -/
def Thread.moveCtor (src : Thread) : Thread × Thread :=
  ({ m_thread := src.m_thread, m_info := src.m_info },
   { m_thread := none, m_info := src.m_info })

/-- Thread move assignment, executed on thread caller: reset the target,
then move both the handle and the Info reference out of the source.
Components: target afterwards, source afterwards, heap afterwards. -/
def Thread.moveAssign (dst src : Thread) (h : Heap) (caller : Nat) :
    Thread × Thread × Heap :=
  let r := Thread.reset dst h caller
  ({ m_thread := src.m_thread, m_info := src.m_info },
   { m_thread := none, m_info := none },
   r.2.1)

/-- Static Thread::name on the calling thread tid: the name stored in the
ambient Info. -/
def Thread.name (h : Heap) (tid : Nat) : String := (h tid).info.name

/-- Static Thread::setName on the calling thread tid: store the name in the
ambient Info; the platform-specific debugger call is one-way and touches no
modelled state. -/
def Thread.setName (h : Heap) (tid : Nat) (s : String) : Heap :=
  h.update tid { h tid with info := { (h tid).info with name := s } }

/-- The outermost frame of the spawned code: run the unit of work and store
any escaping error into the Info of the running thread; a normal completion
leaves the Info untouched.  The function is total: no error propagates out
of the frame. -/
def runBody (r : Except Err Unit) (i : Info) : Info :=
  match r with
  | .ok _ => i
  | .error e => { i with exception := some e }

/-- The spawned lambda of the Thread constructor applied to the heap: the
unit of work ran on thread tid with outcome r and the outermost frame
recorded the outcome in the per-thread state of tid. -/
def spawnBody (h : Heap) (tid : Nat) (r : Except Err Unit) : Heap :=
  h.update tid { h tid with info := runBody r (h tid).info }

/-- The heap-mutating operations of the public Thread surface, used to state
monotonicity of the cancellation state. -/
inductive ThreadOp where
  | opInterrupt (t : Thread)
  | opCheck (t : Thread)
  | opJoin (t : Thread)
  | opReset (t : Thread) (caller : Nat)
  | opMoveAssign (dst src : Thread) (caller : Nat)
  | opSetName (tid : Nat) (s : String)
  | opBody (tid : Nat) (r : Except Err Unit)

/-- Effect of each operation on the heap of per-thread cells. -/
def ThreadOp.apply : ThreadOp → Heap → Heap
  | .opInterrupt t, h => Thread.interrupt t h
  | .opCheck t, h => (Thread.check t h).2
  | .opJoin t, h => (Thread.join t h).2.2
  | .opReset t c, h => (Thread.reset t h c).2.1
  | .opMoveAssign d s c, h => (Thread.moveAssign d s h c).2.2
  | .opSetName tid s, h => Thread.setName h tid s
  | .opBody tid r, h => spawnBody h tid r

/-- Program counter of the constructing thread inside the Thread
constructor: looping on the handshake predicate, waiting on the condition
variable, or returned from the constructor. -/
inductive CtorPC where
  | looping
  | waiting
  | returned
deriving DecidableEq, Repr

/-- Program counter of the spawned thread at the start of the lambda:
before the lock, holding the lock, after m_info was published, after the
stop token was stored, after unlock/notify. -/
inductive SpawnPC where
  | entry
  | locked
  | infoSet
  | installed
  | done
deriving DecidableEq, Repr

/-- Who holds the handshake mutex. -/
inductive LockHolder where
  | free
  | ctor
  | spawned
deriving DecidableEq, Repr

/-- Joint state of the construction handshake: the lock, the published
m_info pointer (minfo), the stop token stored into the published Info
(token), joinability of m_thread (handle), and both program counters. -/
structure HSt where
  holder : LockHolder
  minfo : Bool
  token : Bool
  handle : Bool
  cpc : CtorPC
  spc : SpawnPC
deriving DecidableEq, Repr

/-- Initial handshake state: the constructor holds the lock it took before
spawning, the jthread was assigned (joinable), nothing is published yet,
and the spawned lambda is at its entry. -/
def HSt.init : HSt :=
  { holder := .ctor, minfo := false, token := false, handle := true,
    cpc := .looping, spc := .entry }

/-- Interleaved small-step relation of the handshake.  The spawned thread
acquires the lock, publishes m_info, stores the stop token, then unlocks
and notifies; the constructing thread, holding the lock, exits its loop
when m_info is published or releases the lock into a wait, from which any
notification or spurious wakeup lets it reacquire the lock. -/
inductive HStep : HSt → HSt → Prop where
  | spawnAcquire (s : HSt) (h1 : s.spc = .entry) (h2 : s.holder = .free) :
      HStep s { s with holder := .spawned, spc := .locked }
  | spawnSetInfo (s : HSt) (h1 : s.spc = .locked) (h2 : s.holder = .spawned) :
      HStep s { s with minfo := true, spc := .infoSet }
  | spawnSetToken (s : HSt) (h1 : s.spc = .infoSet) (h2 : s.holder = .spawned) :
      HStep s { s with token := true, spc := .installed }
  | spawnUnlock (s : HSt) (h1 : s.spc = .installed) (h2 : s.holder = .spawned) :
      HStep s { s with holder := .free, spc := .done }
  | ctorExit (s : HSt) (h1 : s.cpc = .looping) (h2 : s.holder = .ctor)
      (h3 : s.minfo = true) :
      HStep s { s with cpc := .returned, holder := .free }
  | ctorWait (s : HSt) (h1 : s.cpc = .looping) (h2 : s.holder = .ctor)
      (h3 : s.minfo = false) :
      HStep s { s with cpc := .waiting, holder := .free }
  | ctorWake (s : HSt) (h1 : s.cpc = .waiting) (h2 : s.holder = .free) :
      HStep s { s with cpc := .looping, holder := .ctor }

/-- States reachable from the start of the handshake. -/
inductive HReach : HSt → Prop where
  | init : HReach HSt.init
  | step {s s1 : HSt} : HReach s → HStep s s1 → HReach s1

/-- Inductive invariant of the handshake: the handle stays joinable, the
published flags track the spawned program counter, publication happens only
while the spawned thread holds the lock, and a returned constructor has
seen both the published m_info and the stored token. -/
def HInv (s : HSt) : Prop :=
  s.handle = true
  ∧ (s.minfo = true ↔ (s.spc = .infoSet ∨ s.spc = .installed ∨ s.spc = .done))
  ∧ (s.token = true ↔ (s.spc = .installed ∨ s.spc = .done))
  ∧ (s.spc = .infoSet → s.holder = .spawned)
  ∧ (s.cpc = .returned → s.minfo = true ∧ s.token = true)

theorem hinv_init : HInv HSt.init := by
  unfold HInv HSt.init
  decide

theorem hinv_step {s s1 : HSt} (hst : HStep s s1) (hinv : HInv s) : HInv s1 := by
  obtain ⟨ih, im, it, il, ir⟩ := hinv
  cases hst with
  | spawnAcquire h1 h2 => simp_all [HInv]
  | spawnSetInfo h1 h2 => simp_all [HInv]
  | spawnSetToken h1 h2 => simp_all [HInv]
  | spawnUnlock h1 h2 => simp_all [HInv]
  | ctorExit h1 h2 h3 =>
    refine ⟨by simpa using ih, by simpa using im, by simpa using it, ?_, ?_⟩
    · intro hs
      simp only [] at hs
      have hsp := il (by simpa using hs)
      rw [h2] at hsp
      exact absurd hsp (by simp)
    · intro _
      refine ⟨by simpa using h3, ?_⟩
      rcases im.mp h3 with hs | hs | hs
      · have hsp := il hs
        rw [h2] at hsp
        exact absurd hsp (by simp)
      · simpa using it.mpr (Or.inl hs)
      · simpa using it.mpr (Or.inr hs)
  | ctorWait h1 h2 h3 => simp_all [HInv]
  | ctorWake h1 h2 => simp_all [HInv]

theorem hreach_inv {s : HSt} (h : HReach s) : HInv s := by
  induction h with
  | init => exact hinv_init
  | step _ hstep ih => exact hinv_step hstep ih

theorem Heap.update_self (h : Heap) (tid : Nat) (o : OsThread) :
    (h.update tid o) tid = o := by
  simp [Heap.update]

theorem Heap.update_other (h : Heap) (tid j : Nat) (o : OsThread)
    (hj : j ≠ tid) : (h.update tid o) j = h j := by
  simp [Heap.update, hj]

/-- C1: an error raised by a unit of work is caught at the outermost frame
of the spawned code (runBody is total) and stored in the per-thread state
of the spawned thread; the first check() or join() through the Thread
handle re-raises exactly that error and clears it, and a second immediate
check() raises nothing. -/
theorem worker_failure_delivery (e : Err) (t : Thread) (h : Heap) (tid : Nat)
    (hinfo : t.m_info = some tid) :
    ((spawnBody h tid (.error e)) tid).info.exception = some e
    ∧ (Thread.check t (spawnBody h tid (.error e))).1 = some e
    ∧ (Thread.check t (Thread.check t (spawnBody h tid (.error e))).2).1 = none
    ∧ (Thread.join t (spawnBody h tid (.error e))).2.1 = some e := by
  have h1 : (spawnBody h tid (.error e)) tid
      = { h tid with info := { (h tid).info with exception := some e } } := by
    simp [spawnBody, runBody, Heap.update_self]
  refine ⟨by rw [h1], ?_, ?_, ?_⟩
  · simp [Thread.check, hinfo, h1, Info.checkException]
  · simp [Thread.check, hinfo, h1, Info.checkException, Heap.update_self]
  · have hmi : (if t.isRunning then { t with m_thread := none } else t).m_info
        = some tid := by
      by_cases hr : t.isRunning <;> simp [hr, hinfo]
    simp [Thread.join, Thread.check, hmi, h1, Info.checkException]

theorem worker_failure_delivery_witness :
    ((spawnBody (fun _ => { info := Info.init, stopRequested := false }) 0
        (.error (.user 3))) 0).info.exception = some (.user 3)
    ∧ (Thread.check { m_thread := some 0, m_info := some 0 }
        (spawnBody (fun _ => { info := Info.init, stopRequested := false }) 0
          (.error (.user 3)))).1 = some (.user 3)
    ∧ (Thread.check { m_thread := some 0, m_info := some 0 }
        (Thread.check { m_thread := some 0, m_info := some 0 }
          (spawnBody (fun _ => { info := Info.init, stopRequested := false }) 0
            (.error (.user 3)))).2).1 = none
    ∧ (Thread.join { m_thread := some 0, m_info := some 0 }
        (spawnBody (fun _ => { info := Info.init, stopRequested := false }) 0
          (.error (.user 3)))).2.1 = some (.user 3) :=
  worker_failure_delivery (.user 3) { m_thread := some 0, m_info := some 0 }
    (fun _ => { info := Info.init, stopRequested := false }) 0 rfl

/-- Counterexample to C4 as stated: after move construction the source
Thread still holds the Info reference, and check() on the source observes
and re-raises a stored failure rather than nothing. -/
theorem moveCtor_source_keeps_info :
    (Thread.moveCtor { m_thread := some 0, m_info := some 0 }).2.m_info = some 0
    ∧ (Thread.check (Thread.moveCtor { m_thread := some 0, m_info := some 0 }).2
        (fun _ => { info := { name := "", exception := some (.user 7) },
                    stopRequested := false })).1 = some (.user 7) := by
  constructor <;> rfl

/-- C4 amended: move construction transfers the OS handle (the source stops
being running) but copies the Info reference, which the source retains;
move assignment first resets the target, then transfers both the handle and
the Info reference and leaves the source with neither. -/
theorem thread_move_semantics (src dst : Thread) (h : Heap) (caller : Nat) :
    (Thread.moveCtor src).1 = { m_thread := src.m_thread, m_info := src.m_info }
    ∧ (Thread.moveCtor src).2.m_thread = none
    ∧ Thread.isRunning (Thread.moveCtor src).2 = false
    ∧ (Thread.moveCtor src).2.m_info = src.m_info
    ∧ Thread.moveAssign dst src h caller
        = ({ m_thread := src.m_thread, m_info := src.m_info },
           { m_thread := none, m_info := none },
           (Thread.reset dst h caller).2.1) := by
  refine ⟨rfl, rfl, rfl, rfl, rfl⟩

/-- C5: reset() does nothing on a non-running Thread; on a running one it
requests interruption, joins when the calling thread differs from the owned
thread and detaches when they coincide, and drops the handle and the Info
reference. -/
theorem thread_reset_spec (t : Thread) (h : Heap) (caller : Nat) :
    (Thread.isRunning t = false → Thread.reset t h caller = (t, h, .idle))
    ∧ (∀ tid, t.m_thread = some tid →
        (Thread.reset t h caller).2.1 = requestStop h tid
        ∧ ((Thread.reset t h caller).2.1 tid).stopRequested = true
        ∧ (Thread.reset t h caller).2.2
            = (if caller = tid then ResetAction.detached else ResetAction.joined)
        ∧ (Thread.reset t h caller).1.m_info = none
        ∧ (Thread.reset t h caller).1.m_thread = none) := by
  constructor
  · intro hr
    cases ht : t.m_thread with
    | none => simp [Thread.reset, ht]
    | some tid => simp [Thread.isRunning, ht] at hr
  · intro tid ht
    have hstop : (requestStop h tid tid).stopRequested = true := by
      simp [requestStop, Heap.update_self]
    by_cases hc : caller = tid
    · simp [Thread.reset, ht, hc, hstop]
    · simp [Thread.reset, ht, hc, hstop]

theorem thread_reset_spec_witness :
    ((Thread.reset { m_thread := some 0, m_info := some 0 }
        (fun _ => { info := Info.init, stopRequested := false }) 1).2.1 0).stopRequested
      = true
    ∧ (Thread.reset { m_thread := some 0, m_info := some 0 }
        (fun _ => { info := Info.init, stopRequested := false }) 1).2.2
      = ResetAction.joined
    ∧ (Thread.reset { m_thread := some 0, m_info := some 0 }
        (fun _ => { info := Info.init, stopRequested := false }) 1).1.m_info
      = none := by
  have hmain := (thread_reset_spec { m_thread := some 0, m_info := some 0 }
    (fun _ => { info := Info.init, stopRequested := false }) 1).2 0 rfl
  refine ⟨hmain.2.1, ?_, hmain.2.2.2.1⟩
  have hact := hmain.2.2.1
  simpa using hact

/-- C8: interrupt() is idempotent, and the cancellation state is monotonic:
no heap-mutating operation of the modelled Thread surface ever turns the
stop state of a thread from requested back to not requested. -/
theorem interrupt_idempotent_monotone :
    (∀ (t : Thread) (h : Heap),
      Thread.interrupt t (Thread.interrupt t h) = Thread.interrupt t h)
    ∧ (∀ (op : ThreadOp) (h : Heap) (tid : Nat),
      Thread.isInterrupted h tid = true
      → Thread.isInterrupted (op.apply h) tid = true) := by
  have hupd : ∀ (h : Heap) (i : Nat) (o : OsThread) (tid : Nat),
      o.stopRequested = (h i).stopRequested
      → Thread.isInterrupted h tid = true
      → Thread.isInterrupted (h.update i o) tid = true := by
    intro h i o tid ho hi
    by_cases hj : tid = i
    · subst hj
      simpa [Thread.isInterrupted, Heap.update_self, ho] using hi
    · simpa [Thread.isInterrupted, Heap.update_other h i tid o hj] using hi
  have hreq : ∀ (h : Heap) (i tid : Nat),
      Thread.isInterrupted h tid = true
      → Thread.isInterrupted (requestStop h i) tid = true := by
    intro h i tid hi
    by_cases hj : tid = i
    · subst hj
      simp [Thread.isInterrupted, requestStop, Heap.update_self]
    · simpa [Thread.isInterrupted, requestStop,
        Heap.update_other h i tid _ hj] using hi
  have hcheck : ∀ (t : Thread) (h : Heap) (tid : Nat),
      Thread.isInterrupted h tid = true
      → Thread.isInterrupted (Thread.check t h).2 tid = true := by
    intro t h tid hi
    cases ht : t.m_info with
    | none => simpa [Thread.check, ht] using hi
    | some i =>
      simp only [Thread.check, ht]
      exact hupd h i _ tid rfl hi
  constructor
  · intro t h
    cases ht : t.m_thread with
    | none => simp [Thread.interrupt, ht]
    | some tid =>
      simp only [Thread.interrupt, ht]
      funext j
      by_cases hj : j = tid
      · subst hj
        simp [requestStop, Heap.update_self, Heap.update]
      · simp [requestStop, Heap.update, hj]
  · intro op h tid hi
    cases op with
    | opInterrupt t =>
      cases ht : t.m_thread with
      | none => simpa [ThreadOp.apply, Thread.interrupt, ht] using hi
      | some i =>
        simp only [ThreadOp.apply, Thread.interrupt, ht]
        exact hreq h i tid hi
    | opCheck t => exact hcheck t h tid hi
    | opJoin t =>
      simp only [ThreadOp.apply, Thread.join]
      exact hcheck _ h tid hi
    | opReset t c =>
      cases ht : t.m_thread with
      | none => simpa [ThreadOp.apply, Thread.reset, ht] using hi
      | some i =>
        by_cases hc : c = i
        · simpa [ThreadOp.apply, Thread.reset, ht, hc] using hreq h i tid hi
        · simpa [ThreadOp.apply, Thread.reset, ht, hc] using hreq h i tid hi
    | opMoveAssign d s c =>
      cases ht : d.m_thread with
      | none =>
        simpa [ThreadOp.apply, Thread.moveAssign, Thread.reset, ht] using hi
      | some i =>
        by_cases hc : c = i
        · simpa [ThreadOp.apply, Thread.moveAssign, Thread.reset, ht, hc]
            using hreq h i tid hi
        · simpa [ThreadOp.apply, Thread.moveAssign, Thread.reset, ht, hc]
            using hreq h i tid hi
    | opSetName i s =>
      simp only [ThreadOp.apply, Thread.setName]
      exact hupd h i _ tid rfl hi
    | opBody i r =>
      simp only [ThreadOp.apply, spawnBody]
      exact hupd h i _ tid rfl hi

theorem interrupt_idempotent_monotone_witness :
    Thread.isInterrupted
      ((ThreadOp.opSetName 0 "w").apply
        (fun _ => { info := Info.init, stopRequested := true })) 0 = true :=
  interrupt_idempotent_monotone.2 (ThreadOp.opSetName 0 "w")
    (fun _ => { info := Info.init, stopRequested := true }) 0 rfl

/-- C9: setName followed by name on the same thread returns the stored
string; a freshly created Info carries the empty default name; and setName
on one thread leaves the per-thread state, hence the name, of every other
thread unchanged. -/
theorem name_roundtrip (h : Heap) (tid other : Nat) (s : String) :
    Thread.name (Thread.setName h tid s) tid = s
    ∧ Info.init.name = ""
    ∧ (other ≠ tid → Thread.name (Thread.setName h tid s) other
        = Thread.name h other) := by
  refine ⟨?_, rfl, ?_⟩
  · simp [Thread.name, Thread.setName, Heap.update_self]
  · intro hne
    simp [Thread.name, Thread.setName, Heap.update_other _ _ _ _ hne]

theorem name_roundtrip_witness :
    Thread.name
      (Thread.setName (fun _ => { info := Info.init, stopRequested := false })
        0 "worker-1") 0 = "worker-1"
    ∧ Thread.name
      (Thread.setName (fun _ => { info := Info.init, stopRequested := false })
        0 "worker-1") 1
      = Thread.name (fun _ => { info := Info.init, stopRequested := false }) 1 := by
  have hmain := name_roundtrip
    (fun _ => { info := Info.init, stopRequested := false }) 0 1 "worker-1"
  exact ⟨hmain.1, hmain.2.2 (by decide)⟩

/-- C2: every predicate wait checks the cancellation state of the calling
thread immediately before the condition-variable wait and immediately after
it returns, and raises InterruptException at a checkpoint exactly when a
stop was requested there — even when the wait itself was notified and
finished normally.  A requested stop at the first checkpoint raises before
any wait happens (independently of schedule and state); wait(pred) equals
waitUntil at time_point::max, and waitFor with a positive duration
delegates to waitUntil, so all three share the two checkpoints. -/
theorem wait_interrupt_checkpoints {σ : Type} (i1 stop i2 : Bool)
    (deadline : Int) (pred : σ → Bool × σ) (wakes : List Int) (s : σ)
    (rs : Bool × σ) (hcv : cvWaitUntil stop deadline pred wakes s = some rs) :
    (lockWaitUntilPred i1 stop i2 deadline pred wakes s
        = some (if i1 || i2 then Except.error Err.interrupt else Except.ok rs))
    ∧ (i1 = true → ∀ (wakes2 : List Int) (s2 : σ),
        lockWaitUntilPred i1 stop i2 deadline pred wakes2 s2
          = some (Except.error Err.interrupt))
    ∧ (lockWaitPred i1 stop i2 pred wakes s
        = lockWaitUntilPred i1 stop i2 tpMax pred wakes s)
    ∧ (∀ now dur : Int, 0 < dur →
        lockWaitForPred i1 stop i2 now dur pred wakes s
          = lockWaitUntilPred i1 stop i2
              (if dur = durMax then tpMax else now + dur) pred wakes s) := by
  refine ⟨?_, ?_, rfl, ?_⟩
  · cases i1 <;> cases i2 <;> simp [lockWaitUntilPred, checkInterrupt, hcv]
  · intro h1 wakes2 s2
    subst h1
    simp [lockWaitUntilPred, checkInterrupt]
  · intro now dur hdur
    have hnp : ¬ dur ≤ 0 := by omega
    simp [lockWaitForPred, hnp]

theorem wait_interrupt_checkpoints_witness :
    lockWaitUntilPred false false true 5 (fun b : Bool => (true, b)) [] true
      = some (Except.error Err.interrupt)
    ∧ lockWaitUntilPred true false false 5 (fun b : Bool => (true, b)) [9] false
      = some (Except.error Err.interrupt) := by
  have hmain := wait_interrupt_checkpoints false false true 5
    (fun b : Bool => (true, b)) [] true (true, true) rfl
  have hpre := wait_interrupt_checkpoints true false false 5
    (fun b : Bool => (true, b)) [] true (true, true) rfl
  exact ⟨by simpa using hmain.1, hpre.2.1 rfl [9] false⟩

/-- C3 fails on the code: in an uninterrupted run the unconditioned waitFor
reports cv_status::timeout even when a notification wakes the waiter well
before the deadline (wake at time 3 against deadline 0 + 10), while a
duration of zero — which the claim says has already timed out — yields
no_timeout; waitUntil shows the same behaviour, reporting timeout both for
an early wake at 3 and for a wake at 20 past the deadline 10.  The
alternating guard returns true at its second evaluation on the notified
path and on the timeout path alike, and the code maps a true predicate
result onto cv_status::timeout. -/
theorem waitFor_noPred_status_bug :
    lockWaitForNoPred false false false 0 10 [3]
      = some (Except.ok CvStatus.timeout)
    ∧ lockWaitForNoPred false false false 0 0 []
      = some (Except.ok CvStatus.no_timeout)
    ∧ lockWaitUntilNoPred false false false 10 [3]
      = some (Except.ok CvStatus.timeout)
    ∧ lockWaitUntilNoPred false false false 10 [20]
      = some (Except.ok CvStatus.timeout) := by
  refine ⟨rfl, rfl, rfl, rfl⟩

/-- C7: a waitFor whose predicate already holds on entry returns true at
once, consuming no wake events, for every duration including zero, in an
uninterrupted run; and for every non-positive duration waitFor checks
interruption, evaluates the predicate exactly once (the resulting state is
that of a single application), does not block, and returns the predicate
value. -/
theorem waitFor_pred_shortcut {σ : Type} (now dur : Int)
    (pred : σ → Bool × σ) (s : σ) :
    ((pred s).1 = true →
      lockWaitForPred false false false now dur pred [] s
        = some (Except.ok (pred s)))
    ∧ (dur ≤ 0 → ∀ (i1 stop i2 : Bool) (wakes : List Int),
      lockWaitForPred i1 stop i2 now dur pred wakes s
        = some (if i1 then Except.error Err.interrupt
                else Except.ok (pred s))) := by
  constructor
  · intro hp
    rcases hpe : pred s with ⟨b, s2⟩
    rw [hpe] at hp
    simp only [] at hp
    subst hp
    by_cases hd : dur ≤ 0
    · simp [lockWaitForPred, hd, checkInterrupt, hpe]
    · simp [lockWaitForPred, hd, lockWaitUntilPred, checkInterrupt,
        cvWaitUntil, hpe]
  · intro hd i1 stop i2 wakes
    cases i1 <;> simp [lockWaitForPred, hd, checkInterrupt]

theorem waitFor_pred_shortcut_witness :
    lockWaitForPred false false false 0 0 (fun n : Nat => (true, n + 1)) [] 0
      = some (Except.ok (true, 1))
    ∧ lockWaitForPred true false false 0 (-1)
        (fun n : Nat => (true, n + 1)) [7] 0
      = some (Except.error Err.interrupt) := by
  have h0 := waitFor_pred_shortcut (σ := Nat) 0 0 (fun n => (true, n + 1)) 0
  have h1 := waitFor_pred_shortcut (σ := Nat) 0 (-1) (fun n => (true, n + 1)) 0
  exact ⟨h0.1 rfl, by simpa using h1.2 (by decide) true false false [7]⟩

/-- C10: for a positive duration, waitFor waits until the deadline now +
duration, except that the maximal representable duration is treated as an
unbounded wait until time_point::max instead of computing now + duration. -/
theorem waitFor_deadline_computation {σ : Type} (i1 stop i2 : Bool)
    (now dur : Int) (pred : σ → Bool × σ) (wakes : List Int) (s : σ)
    (hdur : 0 < dur) :
    (dur = durMax →
      lockWaitForPred i1 stop i2 now dur pred wakes s
        = lockWaitUntilPred i1 stop i2 tpMax pred wakes s)
    ∧ (dur ≠ durMax →
      lockWaitForPred i1 stop i2 now dur pred wakes s
        = lockWaitUntilPred i1 stop i2 (now + dur) pred wakes s) := by
  have hnp : ¬ dur ≤ 0 := by omega
  constructor
  · intro hmax
    subst hmax
    simp only [lockWaitForPred]
    rw [if_neg (by decide : ¬ (durMax : Int) ≤ 0)]
    simp
  · intro hne
    simp only [lockWaitForPred]
    rw [if_neg hnp, if_neg hne]

theorem waitFor_deadline_computation_witness :
    lockWaitForPred false false false 100 5 (fun u : Unit => (true, u)) [] ()
      = lockWaitUntilPred false false false (100 + 5)
          (fun u : Unit => (true, u)) [] ()
    ∧ lockWaitForPred false false false 100 durMax
        (fun u : Unit => (true, u)) [] ()
      = lockWaitUntilPred false false false tpMax
          (fun u : Unit => (true, u)) [] () := by
  have h5 := waitFor_deadline_computation (σ := Unit) false false false 100 5
    (fun u => (true, u)) [] () (by decide)
  have hm := waitFor_deadline_computation (σ := Unit) false false false 100
    durMax (fun u => (true, u)) [] () (by decide)
  exact ⟨h5.2 (by decide), hm.1 rfl⟩

/-- C6: in the interleaved model of the construction handshake, whenever
the constructor has returned, the spawned thread has published its
per-thread state and stored its stop token into it, and the Thread handle
is joinable — so immediately after construction isRunning() is true and
the cancellation token is retrievable, and the constructing thread never
gets past the handshake before the per-thread state of the spawned thread
exists. -/
theorem thread_ctor_handshake (s : HSt) (hr : HReach s)
    (hret : s.cpc = .returned) :
    s.minfo = true ∧ s.token = true ∧ s.handle = true := by
  have hinv := hreach_inv hr
  obtain ⟨ih, _, _, _, iret⟩ := hinv
  obtain ⟨hm, ht⟩ := iret hret
  exact ⟨hm, ht, ih⟩

theorem thread_ctor_handshake_witness :
    ({ holder := .free, minfo := true, token := true, handle := true, cpc := .returned, spc := .done } : HSt).minfo = true
    ∧ ({ holder := .free, minfo := true, token := true, handle := true, cpc := .returned, spc := .done } : HSt).token = true
    ∧ ({ holder := .free, minfo := true, token := true, handle := true, cpc := .returned, spc := .done } : HSt).handle = true := by
  have r1 : HReach { holder := .free, minfo := false, token := false, handle := true, cpc := .waiting, spc := .entry } :=
    HReach.step HReach.init (HStep.ctorWait HSt.init rfl rfl rfl)
  have r2 : HReach { holder := .spawned, minfo := false, token := false, handle := true, cpc := .waiting, spc := .locked } :=
    HReach.step r1 (HStep.spawnAcquire _ rfl rfl)
  have r3 : HReach { holder := .spawned, minfo := true, token := false, handle := true, cpc := .waiting, spc := .infoSet } :=
    HReach.step r2 (HStep.spawnSetInfo _ rfl rfl)
  have r4 : HReach { holder := .spawned, minfo := true, token := true, handle := true, cpc := .waiting, spc := .installed } :=
    HReach.step r3 (HStep.spawnSetToken _ rfl rfl)
  have r5 : HReach { holder := .free, minfo := true, token := true, handle := true, cpc := .waiting, spc := .done } :=
    HReach.step r4 (HStep.spawnUnlock _ rfl rfl)
  have r6 : HReach { holder := .ctor, minfo := true, token := true, handle := true, cpc := .looping, spc := .done } :=
    HReach.step r5 (HStep.ctorWake _ rfl rfl)
  have r7 : HReach { holder := .free, minfo := true, token := true, handle := true, cpc := .returned, spc := .done } :=
    HReach.step r6 (HStep.ctorExit _ rfl rfl rfl)
  exact thread_ctor_handshake _ r7 rfl

end ThreadSpec
